import Mathlib

/-!
Verification development for the marketplace chat / negotiation subsystem.

Shallow embedding of the backend sources:
- models/Message.js        (message schema, pre-save hook, validation bounds)
- models/Conversation.js   (conversation schema, participant validation, unread map)
- the Notification model   (notification schema, TTL pre-save hook)
- routes/chat.js           (REST handlers: list messages, post message, offer action)
- socket/socketHandler.js  (socket handlers: sendMessage, markAsRead, respondToOffer,
                            presence registry and its periodic sweep)

Ids are natural numbers, time is milliseconds since epoch as a natural number.
Mongoose collections are modelled as lists of records; the per-conversation
unread map and the presence registry are association lists mirroring the
JavaScript Map objects.  Each HTTP / socket handler is a function from a
state to a new state together with the emitted socket events and the
request outcome.
-/

namespace Marketplace

abbrev UserId := Nat
abbrev ConvId := Nat
abbrev MsgId := Nat
abbrev ProductId := Nat
abbrev Time := Nat

/-- messageType enum of the message schema. -/
inductive MessageType
  | text
  | image
  | file
  | offer
  | system
deriving DecidableEq, Repr

/-- offer.status enum of the message schema. -/
inductive OfferStatus
  | pending
  | accepted
  | rejected
  | expired
deriving DecidableEq, Repr

/-- Embedded offer sub-record of a message (price, status, expiresAt). -/
structure Offer where
  price : Int
  status : OfferStatus
  expiresAt : Option Time
deriving DecidableEq, Repr

/-- Client-supplied offer payload of a send-message request: a price and an
optional explicit expiry, as documented in the POST messages endpoint. -/
structure OfferSpec where
  price : Int
  expiresAt : Option Time
deriving DecidableEq, Repr

/-- Message document (models/Message.js).  Fields not touched by the chat
handlers (attachment, editedAt, replyTo) are omitted. -/
structure Message where
  id : MsgId
  conversation : ConvId
  sender : UserId
  recipient : UserId
  body : String
  messageType : MessageType
  offer : Option Offer
  isRead : Bool
  readAt : Option Time
  isDeleted : Bool
  deletedAt : Option Time
  createdAt : Time
deriving DecidableEq, Repr

/-- Notification type enum of the notification schema. -/
inductive NotifType
  | message
  | favorite
  | comment
  | offer
  | system
  | productSold
  | productViewed
deriving DecidableEq, Repr

/-- Notification document (notification schema).  The structured data payload
is modelled by its conversation / product references. -/
structure Notification where
  recipient : UserId
  sender : Option UserId
  ntype : NotifType
  title : String
  body : String
  convRef : Option ConvId
  prodRef : Option ProductId
  isRead : Bool
  expiresAt : Option Time
deriving DecidableEq, Repr

/-- Conversation document (models/Conversation.js).  unreadCount is the
mongoose Map of user id to counter, modelled as an association list; blockedBy
and archivedBy keep only the user ids of their entries. -/
structure Conversation where
  id : ConvId
  participants : List UserId
  product : ProductId
  lastMessage : Option MsgId
  isActive : Bool
  unreadCount : List (UserId × Int)
  blockedBy : List UserId
  archivedBy : List UserId
deriving DecidableEq, Repr

/-- Error outcomes of the handlers: the REST handlers answer through
sendError with a message and a status code, the socket handlers emit an
error event; internal stands for an uncaught exception (HTTP 500). -/
inductive ChatErr
  | notFound (msg : String)
  | badRequest (msg : String)
  | validation (msg : String)
  | socketError (msg : String)
  | internal
deriving DecidableEq, Repr

/-- Durable state shared by all handlers: the three collections plus the
server-assigned id counter for messages. -/
structure ChatState where
  conversations : List Conversation
  messages : List Message
  notifications : List Notification
  nextMsgId : MsgId
deriving DecidableEq, Repr

/-- One socket.io emission: a room name and an event name. -/
structure Emission where
  channel : String
  event : String
deriving DecidableEq, Repr

/-- Result of running one handler: the new durable state, the emissions it
produced, and its outcome. -/
structure Step (α : Type) where
  state : ChatState
  emits : List Emission
  out : Except ChatErr α
deriving Repr

/-- Personal room a socket joins at connection time (socketHandler.js line 48). -/
def personalChannel (u : UserId) : String := "user:" ++ toString u

/-- Conversation room name used by the socket handlers. -/
def conversationChannel (c : ConvId) : String := "conversation:" ++ toString c

/-! ### Map helpers (mongoose Map / JS Map semantics, unique keys) -/

/-- unreadCount.get(u) with the JS fallback to 0 used by the handlers. -/
def unreadGet (m : List (UserId × Int)) (u : UserId) : Int :=
  match m.find? (fun p => p.1 == u) with
  | some p => p.2
  | none => 0

/-- unreadCount.set(u, v): replace the entry for the key, or append it. -/
def unreadSet : List (UserId × Int) → UserId → Int → List (UserId × Int)
  | [], u, v => [(u, v)]
  | p :: ps, u, v => if p.1 == u then (u, v) :: ps else p :: unreadSet ps u v

/-! ### Schema hooks and validation -/

/-- Check used by the pre-save hook and the offer endpoint: the stored expiry
is strictly before now (expiresAt < new Date()). -/
def offerPastExpiry (now : Time) (o : Offer) : Bool :=
  match o.expiresAt with
  | some e => e < now
  | none => false

/-- Pre-save hook of the message schema: flip a pending offer past its expiry
to expired, stamp readAt on a freshly read message and deletedAt on a freshly
deleted one.  The two Bool arguments stand for isModified(isRead) and
isModified(isDeleted) at the time of the save. -/
def messagePreSave (now : Time) (isReadModified isDeletedModified : Bool)
    (m : Message) : Message :=
  let m :=
    if m.messageType = MessageType.offer then
      match m.offer with
      | some o =>
          if offerPastExpiry now o ∧ o.status = OfferStatus.pending then
            { m with offer := some { o with status := OfferStatus.expired } }
          else m
      | none => m
    else m
  let m :=
    if isReadModified ∧ m.isRead ∧ m.readAt = none then
      { m with readAt := some now }
    else m
  if isDeletedModified ∧ m.isDeleted ∧ m.deletedAt = none then
    { m with deletedAt := some now }
  else m

/-- Message schema validation used on save: the body is required (non-empty
after trimming), bounded by 1000 characters, and an offer price is
non-negative. -/
def messageValid (m : Message) : Bool :=
  (m.body != "") && decide (m.body.length ≤ 1000) &&
    (match m.offer with
     | some o => decide (0 ≤ o.price)
     | none => true)

/-- Whitespace trim applied by the mongoose trim setter on the body. -/
def jsTrim (s : String) : String :=
  String.mk (((s.data.dropWhile Char.isWhitespace).reverse.dropWhile
    Char.isWhitespace).reverse)

/-- Message.create (equivalently new Message plus save): apply the trim
setter, validate, then run the pre-save hook; on a new document every set
path counts as modified. -/
def messageCreate (now : Time) (m : Message) : Except ChatErr Message :=
  let m := { m with body := jsTrim m.body }
  if messageValid m then Except.ok (messagePreSave now true true m)
  else Except.error (ChatErr.validation "Message validation failed")

/-- Pre-validate hook of the conversation schema: a conversation must have
exactly 2 participants. -/
def conversationValidate (c : Conversation) : Bool :=
  c.participants.length == 2

/-- Conversation save: mongoose runs validation (hence the pre-validate hook)
before writing. -/
def conversationSave (c : Conversation) : Except ChatErr Conversation :=
  if conversationValidate c then Except.ok c
  else Except.error (ChatErr.validation "Conversation must have exactly 2 participants")

/-- Pre-save hook of the notification schema: default TTL of 30 days for
system notifications and 7 days for product-view notifications. -/
def notificationPreSave (now : Time) (n : Notification) : Notification :=
  let n :=
    if n.ntype = NotifType.system ∧ n.expiresAt = none then
      { n with expiresAt := some (now + 30 * 24 * 60 * 60 * 1000) }
    else n
  if n.ntype = NotifType.productViewed ∧ n.expiresAt = none then
    { n with expiresAt := some (now + 7 * 24 * 60 * 60 * 1000) }
  else n

/-! ### Store lookups shared by the handlers -/

/-- Conversation.findOne with _id and participants filters: the conversation
with the given id provided the user is one of its participants. -/
def findConvForUser (st : ChatState) (convId : ConvId) (u : UserId) :
    Option Conversation :=
  st.conversations.find? (fun c => c.id == convId && c.participants.contains u)

/-- participants.find(p that differs from the user): the other participant. -/
def otherParticipant (c : Conversation) (u : UserId) : Option UserId :=
  c.participants.find? (fun p => p != u)

/-- Write back a conversation document by id. -/
def updateConv (cs : List Conversation) (c : Conversation) : List Conversation :=
  cs.map (fun x => if x.id == c.id then c else x)

/-- Write back a message document by id. -/
def updateMsg (ms : List Message) (m : Message) : List Message :=
  ms.map (fun x => if x.id == m.id then m else x)

/-! ### Listing order used by the message history endpoint

The endpoint sorts by createdAt descending, pages, then reverses the page.
The store sort is modelled by insertion sort on the creation timestamp. -/

/-- Insert a message into a list kept in descending createdAt order. -/
def insertByCreatedDesc (m : Message) : List Message → List Message
  | [] => [m]
  | x :: xs =>
      if x.createdAt < m.createdAt then m :: x :: xs
      else x :: insertByCreatedDesc m xs

/-- Sort messages by createdAt descending (the sort of the find query). -/
def sortByCreatedDesc : List Message → List Message
  | [] => []
  | m :: ms => insertByCreatedDesc m (sortByCreatedDesc ms)

/-! ### REST handlers (routes/chat.js) -/

/-- Page of messages returned by the history endpoint, with the total count. -/
structure PageResult where
  messages : List Message
  total : Nat
deriving DecidableEq, Repr

/-- GET conversations/:id/messages: fetch the page (createdAt descending,
then reversed to oldest first), then mark this reader's unread messages as
read through updateMany (which bypasses document hooks), then set the
reader's unread counter to 0 and save the conversation.  The returned page is
the snapshot fetched before the read-marking. -/
def getConversationMessages (st : ChatState) (userId : UserId) (convId : ConvId)
    (page limit : Nat) (now : Time) : Step PageResult :=
  match findConvForUser st convId userId with
  | none => ⟨st, [], Except.error (ChatErr.notFound "Conversation not found")⟩
  | some conv =>
      let skip := (page - 1) * limit
      let visible := st.messages.filter (fun m => m.conversation == convId && !m.isDeleted)
      let pageMsgs := (((sortByCreatedDesc visible).drop skip).take limit).reverse
      let total := visible.length
      let messages' := st.messages.map (fun m =>
        if m.conversation == convId && m.recipient == userId && !m.isRead then
          { m with isRead := true, readAt := some now }
        else m)
      let stRead := { st with messages := messages' }
      let conv' := { conv with unreadCount := unreadSet conv.unreadCount userId 0 }
      match conversationSave conv' with
      | Except.error e => ⟨stRead, [], Except.error e⟩
      | Except.ok convSaved =>
          ⟨{ stRead with conversations := updateConv stRead.conversations convSaved },
           [], Except.ok { messages := pageMsgs, total := total }⟩

/-- Offer sub-record stored by the REST append: pending status, explicit
expiry when supplied, default of creation time plus 24 hours otherwise; no
offer is stored unless the type is offer and a payload is present. -/
def restOfferData (now : Time) (mtype : MessageType)
    (offerSpec : Option OfferSpec) : Option Offer :=
  match mtype, offerSpec with
  | MessageType.offer, some s =>
      some { price := s.price, status := OfferStatus.pending,
             expiresAt := some (s.expiresAt.getD (now + 24 * 60 * 60 * 1000)) }
  | _, _ => none

/-- Offer sub-record stored by the socket append: the payload passed through
with the schema default status pending and no default expiry. -/
def socketOfferData (offerSpec : Option OfferSpec) : Option Offer :=
  offerSpec.map (fun s =>
    { price := s.price, status := OfferStatus.pending, expiresAt := s.expiresAt })

/-- Document handed to Message.create by both append paths. -/
def messageDraft (mid : MsgId) (convId : ConvId) (senderId recipientId : UserId)
    (body : String) (mtype : MessageType) (offer : Option Offer) (now : Time) :
    Message :=
  { id := mid, conversation := convId, sender := senderId,
    recipient := recipientId, body := body, messageType := mtype,
    offer := offer, isRead := false, readAt := none, isDeleted := false,
    deletedAt := none, createdAt := now }

/-- Notification text built by the REST append; dereferencing the offer
payload yields none (a thrown TypeError) for an offer-type message without a
payload. -/
def restNotifBody (senderName body : String) (mtype : MessageType)
    (offerSpec : Option OfferSpec) : Option String :=
  match mtype, offerSpec with
  | MessageType.offer, some s =>
      some (senderName ++ " sent you an offer of $" ++ toString s.price)
  | MessageType.offer, none => none
  | _, _ =>
      some (senderName ++ ": " ++
        (if 50 < body.length then body.take 50 ++ "..." else body))

/-- POST conversations/:id/messages: authorize by membership of the
conversation, compute the recipient as the other participant, build the
message (with the pending offer sub-record and the 24-hour default expiry on
the offer branch), create it, update the conversation pointer and the
recipient's unread counter, persist a notification, and emit to the rooms
user_ recipient and user_ sender.  Building the notification text
dereferences the request offer payload, which throws when an offer-type
message carries no offer payload: the messages and the conversation have
already been written at that point. -/
def postMessage (st : ChatState) (senderId : UserId) (senderName : String)
    (convId : ConvId) (body : String) (mtype : MessageType)
    (offerSpec : Option OfferSpec) (now : Time) : Step Message :=
  match findConvForUser st convId senderId with
  | none => ⟨st, [], Except.error (ChatErr.notFound "Conversation not found")⟩
  | some conv =>
      match otherParticipant conv senderId with
      | none => ⟨st, [], Except.error ChatErr.internal⟩
      | some recipientId =>
          match messageCreate now (messageDraft st.nextMsgId convId senderId
              recipientId body mtype (restOfferData now mtype offerSpec) now) with
          | Except.error e => ⟨st, [], Except.error e⟩
          | Except.ok newMessage =>
              let stMsg := { st with messages := st.messages ++ [newMessage],
                                     nextMsgId := st.nextMsgId + 1 }
              let conv' := { conv with
                lastMessage := some newMessage.id,
                unreadCount := unreadSet conv.unreadCount recipientId
                  (unreadGet conv.unreadCount recipientId + 1) }
              match conversationSave conv' with
              | Except.error e => ⟨stMsg, [], Except.error e⟩
              | Except.ok convSaved =>
                  let stConv := { stMsg with
                    conversations := updateConv stMsg.conversations convSaved }
                  match restNotifBody senderName body mtype offerSpec with
                  | none => ⟨stConv, [], Except.error ChatErr.internal⟩
                  | some nb =>
                      let notif : Notification :=
                        { recipient := recipientId, sender := some senderId,
                          ntype := NotifType.message, title := "New Message",
                          body := nb, convRef := some convId,
                          prodRef := some conv.product, isRead := false,
                          expiresAt := none }
                      ⟨{ stConv with notifications :=
                           stConv.notifications ++ [notificationPreSave now notif] },
                       [⟨"user_" ++ toString recipientId, "newMessage"⟩,
                        ⟨"user_" ++ toString senderId, "messageSent"⟩],
                       Except.ok newMessage⟩

/-- Action parameter of the offer endpoint. -/
inductive OfferAction
  | accept
  | reject
deriving DecidableEq, Repr

/-- Raw action word as it appears in the URL. -/
def actionWord : OfferAction → String
  | OfferAction.accept => "accept"
  | OfferAction.reject => "reject"

/-- Status stored for the action. -/
def actionStatus : OfferAction → OfferStatus
  | OfferAction.accept => OfferStatus.accepted
  | OfferAction.reject => OfferStatus.rejected

/-- Capitalize the first character (charAt(0).toUpperCase() + slice(1)). -/
def capitalizeFirst (s : String) : String :=
  match s.toList with
  | [] => ""
  | c :: cs => String.mk (c.toUpper :: cs)

/-- Mongo query of the offer endpoint: the message with the given id whose
recipient is this user, of offer type, with a pending offer status. -/
def offerQuery (userId : UserId) (msgId : MsgId) (m : Message) : Bool :=
  m.id == msgId && m.recipient == userId &&
  m.messageType == MessageType.offer &&
  (match m.offer with
   | some o => o.status == OfferStatus.pending
   | none => false)

/-- PUT messages/:id/offer/:action: find the message by id with this user as
recipient, offer type, and a pending offer status; answer not-found
otherwise.  A pending offer strictly past its expiry is saved as expired and
answered with the expired error.  Otherwise the offer status becomes
accepted or rejected, an acknowledgment message of type text is created, a
notification is persisted for the original sender, and offerUpdate is
emitted to the room user_ sender. -/
def offerActionRest (st : ChatState) (userId : UserId) (msgId : MsgId)
    (action : OfferAction) (now : Time) : Step Message :=
  match st.messages.find? (offerQuery userId msgId) with
  | none => ⟨st, [], Except.error (ChatErr.notFound "Offer not found or already processed")⟩
  | some m =>
      match m.offer with
      | none => ⟨st, [], Except.error ChatErr.internal⟩
      | some o =>
          if offerPastExpiry now o then
            let mExp := messagePreSave now false false
              { m with offer := some { o with status := OfferStatus.expired } }
            ⟨{ st with messages := updateMsg st.messages mExp }, [],
             Except.error (ChatErr.badRequest "Offer has expired")⟩
          else
            let mUpd := messagePreSave now false false
              { m with offer := some { o with status := actionStatus action } }
            let stUpd := { st with messages := updateMsg st.messages mUpd }
            let ack : Message :=
              { id := stUpd.nextMsgId, conversation := m.conversation,
                sender := userId, recipient := m.sender,
                body := "Offer " ++ actionWord action ++ "ed",
                messageType := MessageType.text, offer := none,
                isRead := false, readAt := none, isDeleted := false,
                deletedAt := none, createdAt := now }
            match messageCreate now ack with
            | Except.error e => ⟨stUpd, [], Except.error e⟩
            | Except.ok ackMsg =>
                let stAck := { stUpd with
                  messages := stUpd.messages ++ [ackMsg],
                  nextMsgId := stUpd.nextMsgId + 1 }
                let notif : Notification :=
                  { recipient := m.sender, sender := some userId,
                    ntype := NotifType.offer,
                    title := "Offer " ++ capitalizeFirst (actionWord action) ++ "ed",
                    body := "Your offer of $" ++ toString o.price ++ " was " ++
                      actionWord action ++ "ed",
                    convRef := some m.conversation, prodRef := none,
                    isRead := false, expiresAt := none }
                ⟨{ stAck with notifications :=
                     stAck.notifications ++ [notificationPreSave now notif] },
                 [⟨"user_" ++ toString m.sender, "offerUpdate"⟩],
                 Except.ok mUpd⟩

/-! ### Socket handlers (socket/socketHandler.js) -/

/-- Socket sendMessage handler: authorize by membership, compute the
recipient as the other participant, store the message with the offer payload
passed through unchanged (the schema supplies the pending default status and
no default expiry), update the conversation pointer, emit newMessage to the
conversation room, and persist a notification only when the recipient is not
in the active-users map.  Any thrown error is caught and surfaced as the
failed-to-send error event; a missing or foreign conversation is answered
with the unauthorized error event. -/
def sendMessageSocket (st : ChatState) (senderId : UserId) (senderName : String)
    (online : List UserId) (convId : ConvId) (body : String)
    (mtype : MessageType) (offerSpec : Option OfferSpec) (now : Time) :
    Step Message :=
  match findConvForUser st convId senderId with
  | none =>
      ⟨st, [], Except.error
        (ChatErr.socketError "Unauthorized to send message to this conversation")⟩
  | some conv =>
      match otherParticipant conv senderId with
      | none => ⟨st, [], Except.error (ChatErr.socketError "Failed to send message")⟩
      | some recipientId =>
          match messageCreate now (messageDraft st.nextMsgId convId senderId
              recipientId body mtype (socketOfferData offerSpec) now) with
          | Except.error _ =>
              ⟨st, [], Except.error (ChatErr.socketError "Failed to send message")⟩
          | Except.ok newMessage =>
              let stMsg := { st with messages := st.messages ++ [newMessage],
                                     nextMsgId := st.nextMsgId + 1 }
              let conv' := { conv with lastMessage := some newMessage.id }
              match conversationSave conv' with
              | Except.error _ =>
                  ⟨stMsg, [], Except.error (ChatErr.socketError "Failed to send message")⟩
              | Except.ok convSaved =>
                  let stConv := { stMsg with
                    conversations := updateConv stMsg.conversations convSaved }
                  let emitted := [⟨conversationChannel convId, "newMessage"⟩]
                  if online.contains recipientId then
                    ⟨stConv, emitted, Except.ok newMessage⟩
                  else
                    let notif : Notification :=
                      { recipient := recipientId, sender := some senderId,
                        ntype := NotifType.message, title := "New Message",
                        body := senderName ++ " sent you a message",
                        convRef := some convId, prodRef := none,
                        isRead := false, expiresAt := none }
                    ⟨{ stConv with notifications :=
                         stConv.notifications ++ [notificationPreSave now notif] },
                     emitted, Except.ok newMessage⟩

/-- Socket markAsRead handler: findByIdAndUpdate sets isRead and readAt on
the single given message id (no recipient check, no conversation counter
update), then messageRead is emitted to the conversation room. -/
def markAsReadSocket (st : ChatState) (userId : UserId) (msgId : MsgId)
    (convId : ConvId) (now : Time) : Step Unit :=
  let messages' := st.messages.map (fun m =>
    if m.id == msgId then { m with isRead := true, readAt := some now } else m)
  ⟨{ st with messages := messages' },
   [⟨conversationChannel convId, "messageRead"⟩], Except.ok ()⟩

/-- Response value carried by the respondToOffer socket event. -/
inductive OfferResponse
  | accepted
  | rejected
deriving DecidableEq, Repr

/-- Status stored for a socket offer response. -/
def responseStatus : OfferResponse → OfferStatus
  | OfferResponse.accepted => OfferStatus.accepted
  | OfferResponse.rejected => OfferStatus.rejected

/-- Raw response word as it appears in the event payload. -/
def responseWord : OfferResponse → String
  | OfferResponse.accepted => "accepted"
  | OfferResponse.rejected => "rejected"

/-- Socket respondToOffer handler: if the message exists, carries an offer
sub-record and this user is its recipient, overwrite the offer status with
the response (no pending check, no expiry check), save, emit offerResponse
to the conversation room, persist a notification for the original sender and
emit it live on the sender's personal room.  Otherwise nothing happens.  The
Bool result records whether the guarded branch ran. -/
def respondToOfferSocket (st : ChatState) (userId : UserId) (msgId : MsgId)
    (response : OfferResponse) (now : Time) : Step Bool :=
  match st.messages.find? (fun m => m.id == msgId) with
  | none => ⟨st, [], Except.ok false⟩
  | some m =>
      match m.offer with
      | none => ⟨st, [], Except.ok false⟩
      | some o =>
          if m.recipient == userId then
            let m' := messagePreSave now false false
              { m with offer := some { o with status := responseStatus response } }
            let st' := { st with messages := updateMsg st.messages m' }
            let notif : Notification :=
              { recipient := m.sender, sender := some userId,
                ntype := NotifType.offer, title := "Offer Response",
                body := "Your offer was " ++ responseWord response,
                convRef := some m.conversation, prodRef := none,
                isRead := false, expiresAt := none }
            ⟨{ st' with notifications :=
                 st'.notifications ++ [notificationPreSave now notif] },
             [⟨conversationChannel m.conversation, "offerResponse"⟩,
              ⟨personalChannel m.sender, "notification"⟩],
             Except.ok true⟩
          else ⟨st, [], Except.ok false⟩

/-! ### Presence registry (activeUsers map and its periodic sweep) -/

/-- Value stored in the activeUsers map at connection time. -/
structure PresenceEntry where
  socketId : Nat
  lastSeen : Time
deriving DecidableEq, Repr

/-- Process-local presence registry: user id to entry, a JS Map. -/
abbrev PresenceMap := List (UserId × PresenceEntry)

/-- activeUsers.set: replace the entry for the key, or append it. -/
def presenceSet : PresenceMap → UserId → PresenceEntry → PresenceMap
  | [], u, e => [(u, e)]
  | p :: ps, u, e => if p.1 == u then (u, e) :: ps else p :: presenceSet ps u e

/-- activeUsers.delete. -/
def presenceDelete (reg : PresenceMap) (u : UserId) : PresenceMap :=
  reg.filter (fun p => p.1 != u)

/-- activeUsers.get. -/
def presenceGet (reg : PresenceMap) (u : UserId) : Option PresenceEntry :=
  (reg.find? (fun p => p.1 == u)).map Prod.snd

/-- Staleness threshold of the sweep: 30 minutes in milliseconds. -/
def staleLimit : Nat := 30 * 60 * 1000

/-- Events touching the presence registry.  inboundEvent stands for any
event received on an open connection (sendMessage, typing, markAsRead, and
so on): no handler writes to the activeUsers entry. -/
inductive PresenceEvent
  | connect (u : UserId) (sid : Nat) (t : Time)
  | inboundEvent (u : UserId) (t : Time)
  | disconnect (u : UserId)
  | sweep (t : Time)
deriving DecidableEq, Repr

/-- Effect of one event on the registry.  connect stores the entry with
lastSeen set to the connection time; an inbound event leaves the registry
untouched; the sweep deletes every entry whose age strictly exceeds the
30-minute threshold. -/
def presenceStep (reg : PresenceMap) : PresenceEvent → PresenceMap
  | PresenceEvent.connect u sid t => presenceSet reg u ⟨sid, t⟩
  | PresenceEvent.inboundEvent _ _ => reg
  | PresenceEvent.disconnect u => presenceDelete reg u
  | PresenceEvent.sweep t =>
      reg.filter (fun p => !(decide (staleLimit < t - p.2.lastSeen)))

/-- Run a sequence of presence events. -/
def presenceRun (reg : PresenceMap) (evs : List PresenceEvent) : PresenceMap :=
  evs.foldl presenceStep reg

/-! ### Helper lemmas -/

/-- Ordering produced by the descending sort: any later element of the list
was created no later than an earlier one. -/
def laterFirst (a b : Message) : Prop := b.createdAt ≤ a.createdAt

theorem insertByCreatedDesc_perm (m : Message) (l : List Message) :
    List.Perm (insertByCreatedDesc m l) (m :: l) := by
  induction l with
  | nil => simp [insertByCreatedDesc]
  | cons x xs ih =>
      rw [insertByCreatedDesc]
      split
      · exact List.Perm.refl _
      · exact (ih.cons x).trans (List.Perm.swap m x xs)

theorem sortByCreatedDesc_perm (l : List Message) :
    List.Perm (sortByCreatedDesc l) l := by
  induction l with
  | nil => simp [sortByCreatedDesc]
  | cons m ms ih =>
      rw [sortByCreatedDesc]
      exact (insertByCreatedDesc_perm m _).trans (ih.cons m)

theorem pairwise_insertByCreatedDesc (m : Message) :
    ∀ l : List Message, l.Pairwise laterFirst →
      (insertByCreatedDesc m l).Pairwise laterFirst := by
  intro l
  induction l with
  | nil => intro _; simp [insertByCreatedDesc, laterFirst]
  | cons x xs ih =>
      intro h
      rw [List.pairwise_cons] at h
      obtain ⟨hx, hxs⟩ := h
      rw [insertByCreatedDesc]
      split
      · rename_i hc
        rw [List.pairwise_cons]
        refine ⟨?_, List.pairwise_cons.mpr ⟨hx, hxs⟩⟩
        intro y hy
        rcases List.mem_cons.mp hy with rfl | hy
        · exact Nat.le_of_lt hc
        · exact Nat.le_trans (hx y hy) (Nat.le_of_lt hc)
      · rename_i hc
        rw [List.pairwise_cons]
        refine ⟨?_, ih hxs⟩
        intro y hy
        rcases List.mem_cons.mp ((insertByCreatedDesc_perm m xs).mem_iff.mp hy) with rfl | hy
        · exact Nat.le_of_not_lt hc
        · exact hx y hy

theorem pairwise_sortByCreatedDesc (l : List Message) :
    (sortByCreatedDesc l).Pairwise laterFirst := by
  induction l with
  | nil => simp [sortByCreatedDesc]
  | cons m ms ih =>
      rw [sortByCreatedDesc]
      exact pairwise_insertByCreatedDesc m _ ih

/-- The page assembled by the history endpoint is in non-decreasing
createdAt order. -/
theorem pairwise_page (l : List Message) (skip limit : Nat) :
    ((((sortByCreatedDesc l).drop skip).take limit).reverse).Pairwise
      (fun a b => a.createdAt ≤ b.createdAt) := by
  have h1 := pairwise_sortByCreatedDesc l
  have h2 := h1.sublist (List.drop_sublist skip _)
  have h3 := h2.sublist (List.take_sublist limit _)
  exact List.pairwise_reverse.mpr h3

theorem unreadGet_unreadSet_self (m : List (UserId × Int)) (u : UserId) (v : Int) :
    unreadGet (unreadSet m u v) u = v := by
  induction m with
  | nil => simp [unreadSet, unreadGet, List.find?]
  | cons p ps ih =>
      rw [unreadSet]
      by_cases h : p.1 == u
      · rw [if_pos h]
        simp [unreadGet, List.find?]
      · rw [if_neg h]
        rw [unreadGet, List.find?]
        simp only [h]
        exact ih

/-- Shape of the pre-save hook result: only the offer, readAt and deletedAt
fields can change. -/
theorem messagePreSave_shape (now : Time) (b1 b2 : Bool) (m : Message) :
    ∃ o r d, messagePreSave now b1 b2 m =
      { m with offer := o, readAt := r, deletedAt := d } := by
  unfold messagePreSave
  dsimp only
  repeat' split
  all_goals exact ⟨_, _, _, rfl⟩

/-- Fields of a message untouched by the pre-save hook. -/
theorem messagePreSave_fields (now : Time) (b1 b2 : Bool) (m : Message) :
    (messagePreSave now b1 b2 m).recipient = m.recipient ∧
    (messagePreSave now b1 b2 m).sender = m.sender ∧
    (messagePreSave now b1 b2 m).conversation = m.conversation ∧
    (messagePreSave now b1 b2 m).messageType = m.messageType ∧
    (messagePreSave now b1 b2 m).id = m.id ∧
    (messagePreSave now b1 b2 m).createdAt = m.createdAt ∧
    (messagePreSave now b1 b2 m).isRead = m.isRead ∧
    (messagePreSave now b1 b2 m).isDeleted = m.isDeleted ∧
    (messagePreSave now b1 b2 m).body = m.body := by
  obtain ⟨o, r, d, h⟩ := messagePreSave_shape now b1 b2 m
  rw [h]
  simp

/-- Fields of a message untouched by create (trim plus hook), given the
create succeeded. -/
theorem messageCreate_fields (now : Time) (d nm : Message)
    (h : messageCreate now d = Except.ok nm) :
    nm.recipient = d.recipient ∧ nm.sender = d.sender ∧
    nm.conversation = d.conversation ∧ nm.messageType = d.messageType ∧
    nm.id = d.id ∧ nm.createdAt = d.createdAt ∧
    nm.isRead = d.isRead ∧ nm.isDeleted = d.isDeleted := by
  unfold messageCreate at h
  dsimp only at h
  split at h
  · cases h
    have := messagePreSave_fields now true true { d with body := jsTrim d.body }
    simp_all
  · cases h

/-- Offer sub-record after the pre-save hook, when the flip condition does
not hold. -/
theorem messagePreSave_offer_stable (now : Time) (b1 b2 : Bool) (m : Message)
    (h : ∀ o, m.offer = some o →
      ¬(offerPastExpiry now o = true ∧ o.status = OfferStatus.pending)) :
    (messagePreSave now b1 b2 m).offer = m.offer := by
  unfold messagePreSave
  dsimp only
  repeat' split
  all_goals simp_all

/-- Offer sub-record preserved by create when the flip condition does not
hold. -/
theorem messageCreate_offer_stable (now : Time) (d nm : Message)
    (hok : messageCreate now d = Except.ok nm)
    (h : ∀ o, d.offer = some o →
      ¬(offerPastExpiry now o = true ∧ o.status = OfferStatus.pending)) :
    nm.offer = d.offer := by
  unfold messageCreate at hok
  dsimp only at hok
  split at hok
  · cases hok
    exact messagePreSave_offer_stable now true true { d with body := jsTrim d.body } h
  · cases hok

/-- Properties of a conversation found for a user: it is one of the stored
conversations, has the requested id, and the user is a participant. -/
theorem findConvForUser_spec (st : ChatState) (convId : ConvId) (u : UserId)
    (conv : Conversation) (h : findConvForUser st convId u = some conv) :
    conv ∈ st.conversations ∧ conv.id = convId ∧ u ∈ conv.participants := by
  unfold findConvForUser at h
  refine ⟨List.mem_of_find?_eq_some h, ?_, ?_⟩
  · have := List.find?_some h
    simp only [Bool.and_eq_true, beq_iff_eq] at this
    exact this.1
  · have := List.find?_some h
    simp only [Bool.and_eq_true, beq_iff_eq] at this
    exact List.contains_iff_exists_mem_beq.mp this.2 |>.elim
      (fun x hx => by
        obtain ⟨hmem, hbeq⟩ := hx
        exact (beq_iff_eq.mp hbeq ▸ hmem))

/-- Properties of the other participant: a member of the participant list
that differs from the user. -/
theorem otherParticipant_spec (c : Conversation) (u r : UserId)
    (h : otherParticipant c u = some r) :
    r ∈ c.participants ∧ r ≠ u := by
  unfold otherParticipant at h
  refine ⟨List.mem_of_find?_eq_some h, ?_⟩
  have := List.find?_some h
  simpa using this

/-- Notification pre-save hook leaves an offer or message notification
unchanged (the TTL defaults concern only system and product-view types). -/
theorem notificationPreSave_id (now : Time) (n : Notification)
    (h : n.ntype = NotifType.offer ∨ n.ntype = NotifType.message) :
    notificationPreSave now n = n := by
  unfold notificationPreSave
  rcases h with h | h <;> simp [h]

/-- Offer sub-record after the pre-save hook: unchanged, or with its status
flipped to expired. -/
theorem messagePreSave_offer_shape (now : Time) (b1 b2 : Bool) (m : Message)
    (o : Offer) (h : m.offer = some o) :
    (messagePreSave now b1 b2 m).offer = some o ∨
    (messagePreSave now b1 b2 m).offer =
      some { o with status := OfferStatus.expired } := by
  unfold messagePreSave
  dsimp only
  repeat' split
  all_goals simp_all

/-- Offer sub-record after create: unchanged, or status flipped to expired;
price and expiry are preserved either way. -/
theorem messageCreate_offer_shape (now : Time) (d nm : Message) (o : Offer)
    (hok : messageCreate now d = Except.ok nm) (h : d.offer = some o) :
    nm.offer = some o ∨ nm.offer = some { o with status := OfferStatus.expired } := by
  unfold messageCreate at hok
  dsimp only at hok
  split at hok
  · cases hok
    exact messagePreSave_offer_shape now true true _ o h
  · cases hok

/-- Every element of the written-back message list carrying the id of the
written document is that document. -/
theorem mem_updateMsg_same_id (ms : List Message) (n m' : Message)
    (h : m' ∈ updateMsg ms n) (hid : m'.id = n.id) : m' = n := by
  unfold updateMsg at h
  obtain ⟨x, _, hx⟩ := List.mem_map.mp h
  by_cases hxe : x.id == n.id
  · rw [if_pos hxe] at hx
    exact hx.symm
  · rw [if_neg hxe] at hx
    subst hx
    exact absurd (beq_iff_eq.mpr hid) hxe

/-- Decomposition of a hit of the offer-endpoint query. -/
theorem offerQuery_spec (userId : UserId) (msgId : MsgId) (m : Message)
    (h : offerQuery userId msgId m = true) :
    m.id = msgId ∧ m.recipient = userId ∧
    m.messageType = MessageType.offer ∧
    ∃ o, m.offer = some o ∧ o.status = OfferStatus.pending := by
  unfold offerQuery at h
  simp only [Bool.and_eq_true, beq_iff_eq] at h
  obtain ⟨⟨⟨h1, h2⟩, h3⟩, h4⟩ := h
  refine ⟨h1, h2, h3, ?_⟩
  cases ho : m.offer with
  | none => rw [ho] at h4; cases h4
  | some o =>
      rw [ho] at h4
      exact ⟨o, rfl, by simpa using h4⟩

/-- Full evaluation of the message-history endpoint when the conversation is
found and valid. -/
theorem getConversationMessages_eq (st : ChatState) (userId : UserId)
    (convId : ConvId) (page limit : Nat) (now : Time) (conv : Conversation)
    (hfc : findConvForUser st convId userId = some conv)
    (h2 : conv.participants.length = 2) :
    getConversationMessages st userId convId page limit now =
      ⟨{ st with
           messages := st.messages.map (fun m =>
             if m.conversation == convId && m.recipient == userId && !m.isRead then
               { m with isRead := true, readAt := some now }
             else m),
           conversations := updateConv st.conversations
             { conv with unreadCount := unreadSet conv.unreadCount userId 0 } },
       [],
       Except.ok
         { messages := ((((sortByCreatedDesc (st.messages.filter
             (fun m => m.conversation == convId && !m.isDeleted))).drop
               ((page - 1) * limit)).take limit)).reverse,
           total := (st.messages.filter
             (fun m => m.conversation == convId && !m.isDeleted)).length }⟩ := by
  unfold getConversationMessages
  rw [hfc]
  dsimp only
  have hv : conversationValidate
      { conv with unreadCount := unreadSet conv.unreadCount userId 0 } = true := by
    simp [conversationValidate, h2]
  unfold conversationSave
  rw [hv]
  rfl

/-- Inversion of a successful history call: the conversation was found and
its participant list passed validation. -/
theorem getConversationMessages_out_ok (st : ChatState) (userId : UserId)
    (convId : ConvId) (page limit : Nat) (now : Time) (pr : PageResult)
    (h : (getConversationMessages st userId convId page limit now).out = Except.ok pr) :
    ∃ conv, findConvForUser st convId userId = some conv ∧
      conv.participants.length = 2 := by
  unfold getConversationMessages at h
  cases hfc : findConvForUser st convId userId with
  | none => rw [hfc] at h; simp at h
  | some conv =>
      rw [hfc] at h
      dsimp only at h
      refine ⟨conv, rfl, ?_⟩
      cases hs : conversationSave
          { conv with unreadCount := unreadSet conv.unreadCount userId 0 } with
      | error e => rw [hs] at h; simp at h
      | ok c2 =>
          unfold conversationSave at hs
          by_cases hvv : conversationValidate
              { conv with unreadCount := unreadSet conv.unreadCount userId 0 } = true
          · simpa [conversationValidate] using hvv
          · rw [if_neg hvv] at hs; cases hs

/-- After a successful history call, every conversation stored under the
requested id carries a zero unread counter for the reader. -/
theorem getMessages_counter_zero (st : ChatState) (userId : UserId)
    (convId : ConvId) (page limit : Nat) (now : Time) (pr : PageResult)
    (h : (getConversationMessages st userId convId page limit now).out = Except.ok pr) :
    ∀ c ∈ (getConversationMessages st userId convId page limit now).state.conversations,
      c.id = convId → unreadGet c.unreadCount userId = 0 := by
  obtain ⟨conv, hfc, h2⟩ := getConversationMessages_out_ok st userId convId page limit now pr h
  rw [getConversationMessages_eq st userId convId page limit now conv hfc h2]
  intro c hc hcid
  unfold updateConv at hc
  obtain ⟨x, hxmem, hx⟩ := List.mem_map.mp hc
  by_cases hxe : x.id == conv.id
  · rw [if_pos hxe] at hx
    subst hx
    exact unreadGet_unreadSet_self conv.unreadCount userId 0
  · rw [if_neg hxe] at hx
    subst hx
    have hcid2 : conv.id = convId := (findConvForUser_spec st convId userId conv hfc).2.1
    exact absurd (beq_iff_eq.mpr (hcid.trans hcid2.symm)) hxe

/-- The history endpoint returns stored message documents verbatim: no read
path rewrites the offers it surfaces. -/
theorem getMessages_returns_stored (st : ChatState) (userId : UserId)
    (convId : ConvId) (page limit : Nat) (now : Time) (pr : PageResult)
    (h : (getConversationMessages st userId convId page limit now).out = Except.ok pr) :
    ∀ m ∈ pr.messages, m ∈ st.messages := by
  obtain ⟨conv, hfc, h2⟩ := getConversationMessages_out_ok st userId convId page limit now pr h
  rw [getConversationMessages_eq st userId convId page limit now conv hfc h2] at h
  simp only [Except.ok.injEq] at h
  intro m hm
  rw [← h] at hm
  simp only [List.mem_reverse] at hm
  have hm2 := (List.take_sublist _ _).subset hm
  have hm3 := (List.drop_sublist _ _).subset hm2
  have hm4 := (sortByCreatedDesc_perm _).mem_iff.mp hm3
  exact List.mem_of_mem_filter hm4

/-- Expired branch of the offer endpoint: a pending offer whose stored
expiry lies strictly before now is answered with the expired error and
written back with status expired. -/
theorem offerActionRest_expired_spec (st : ChatState) (userId : UserId)
    (msgId : MsgId) (action : OfferAction) (now : Time) (m : Message)
    (o : Offer) (e : Time)
    (hfind : st.messages.find? (offerQuery userId msgId) = some m)
    (ho : m.offer = some o) (he : o.expiresAt = some e) (hlt : e < now) :
    (offerActionRest st userId msgId action now).out =
      Except.error (ChatErr.badRequest "Offer has expired") ∧
    ∀ m' ∈ (offerActionRest st userId msgId action now).state.messages,
      m'.id = msgId → Option.map Offer.status m'.offer = some OfferStatus.expired := by
  have hq := offerQuery_spec userId msgId m (List.find?_some hfind)
  obtain ⟨hid, _, _, o2, ho2, _⟩ := hq
  have hpast : offerPastExpiry now o = true := by
    unfold offerPastExpiry
    rw [he]
    simpa using hlt
  unfold offerActionRest
  rw [hfind]
  dsimp only
  rw [ho]
  dsimp only
  rw [if_pos hpast]
  refine ⟨rfl, ?_⟩
  intro m' hm' hmid
  have hexp : (messagePreSave now false false
      { m with offer := some { o with status := OfferStatus.expired } }).offer =
      some { o with status := OfferStatus.expired } := by
    apply messagePreSave_offer_stable
    intro o3 ho3
    simp only [Option.some.injEq] at ho3
    intro hcon
    rw [← ho3] at hcon
    cases hcon.2
  have hidp : (messagePreSave now false false
      { m with offer := some { o with status := OfferStatus.expired } }).id = m.id :=
    (messagePreSave_fields now false false _).2.2.2.2.1
  have := mem_updateMsg_same_id st.messages _ m' hm' (by rw [hidp, hid]; exact hmid)
  rw [this, hexp]
  rfl

/-- Success branch of the offer endpoint, fully evaluated. -/
theorem offerActionRest_success_eq (st : ChatState) (userId : UserId)
    (msgId : MsgId) (action : OfferAction) (now : Time) (m : Message) (o : Offer)
    (hf : st.messages.find? (offerQuery userId msgId) = some m)
    (ho : m.offer = some o) (hpast : offerPastExpiry now o = false) :
    offerActionRest st userId msgId action now =
      ⟨{ st with
           messages := updateMsg st.messages
               (messagePreSave now false false
                 { m with offer := some { o with status := actionStatus action } }) ++
             [{ id := st.nextMsgId, conversation := m.conversation,
                sender := userId, recipient := m.sender,
                body := jsTrim ("Offer " ++ actionWord action ++ "ed"),
                messageType := MessageType.text, offer := none, isRead := false,
                readAt := none, isDeleted := false, deletedAt := none,
                createdAt := now }],
           notifications := st.notifications ++
             [notificationPreSave now
               { recipient := m.sender, sender := some userId,
                 ntype := NotifType.offer,
                 title := "Offer " ++ capitalizeFirst (actionWord action) ++ "ed",
                 body := "Your offer of $" ++ toString o.price ++ " was " ++
                   actionWord action ++ "ed",
                 convRef := some m.conversation, prodRef := none,
                 isRead := false, expiresAt := none }],
           nextMsgId := st.nextMsgId + 1 },
       [⟨"user_" ++ toString m.sender, "offerUpdate"⟩],
       Except.ok (messagePreSave now false false
         { m with offer := some { o with status := actionStatus action } })⟩ := by
  unfold offerActionRest
  rw [hf]
  dsimp only
  rw [ho]
  dsimp only
  rw [if_neg (by simp [hpast])]
  cases action <;> rfl

/-- Inversion of a successful REST append. -/
theorem postMessage_ok_inv (st : ChatState) (senderId : UserId)
    (senderName : String) (convId : ConvId) (body : String)
    (mtype : MessageType) (offerSpec : Option OfferSpec) (now : Time) (m : Message)
    (h : (postMessage st senderId senderName convId body mtype offerSpec now).out =
      Except.ok m) :
    ∃ conv recipientId nb,
      findConvForUser st convId senderId = some conv ∧
      otherParticipant conv senderId = some recipientId ∧
      conv.participants.length = 2 ∧
      messageCreate now (messageDraft st.nextMsgId convId senderId recipientId
        body mtype (restOfferData now mtype offerSpec) now) = Except.ok m ∧
      restNotifBody senderName body mtype offerSpec = some nb := by
  unfold postMessage at h
  rcases hfc : findConvForUser st convId senderId with _ | conv
  · rw [hfc] at h; cases h
  rw [hfc] at h
  dsimp only at h
  rcases hop : otherParticipant conv senderId with _ | recipientId
  · rw [hop] at h; cases h
  rw [hop] at h
  dsimp only at h
  rcases hcr : messageCreate now (messageDraft st.nextMsgId convId senderId
      recipientId body mtype (restOfferData now mtype offerSpec) now) with e | nm
  · rw [hcr] at h; cases h
  rw [hcr] at h
  dsimp only at h
  rcases hcs : conversationSave { conv with
      lastMessage := some nm.id,
      unreadCount := unreadSet conv.unreadCount recipientId
        (unreadGet conv.unreadCount recipientId + 1) } with e | cs
  · rw [hcs] at h; cases h
  rw [hcs] at h
  dsimp only at h
  rcases hnb : restNotifBody senderName body mtype offerSpec with _ | nb
  · rw [hnb] at h; cases h
  rw [hnb] at h
  dsimp only at h
  cases h
  have hval : conv.participants.length = 2 := by
    unfold conversationSave at hcs
    by_cases hv : conversationValidate { conv with
        lastMessage := some m.id,
        unreadCount := unreadSet conv.unreadCount recipientId
          (unreadGet conv.unreadCount recipientId + 1) } = true
    · simpa [conversationValidate] using hv
    · rw [if_neg hv] at hcs; cases hcs
  refine ⟨conv, recipientId, nb, ?_, ?_, hval, ?_, ?_⟩
  · first | rfl | exact hfc
  · first | rfl | exact hop
  · first | rfl | exact hcr
  · first | rfl | exact hnb

/-- Full evaluation of a successful REST append. -/
theorem postMessage_eq (st : ChatState) (senderId : UserId) (senderName : String)
    (convId : ConvId) (body : String) (mtype : MessageType)
    (offerSpec : Option OfferSpec) (now : Time) (conv : Conversation)
    (recipientId : UserId) (nm : Message) (nb : String)
    (hfc : findConvForUser st convId senderId = some conv)
    (hop : otherParticipant conv senderId = some recipientId)
    (hval : conv.participants.length = 2)
    (hcr : messageCreate now (messageDraft st.nextMsgId convId senderId
      recipientId body mtype (restOfferData now mtype offerSpec) now) = Except.ok nm)
    (hnb : restNotifBody senderName body mtype offerSpec = some nb) :
    postMessage st senderId senderName convId body mtype offerSpec now =
      ⟨{ st with
           messages := st.messages ++ [nm],
           conversations := updateConv st.conversations
             { conv with
                 lastMessage := some nm.id,
                 unreadCount := unreadSet conv.unreadCount recipientId
                   (unreadGet conv.unreadCount recipientId + 1) },
           notifications := st.notifications ++
             [notificationPreSave now
               { recipient := recipientId, sender := some senderId,
                 ntype := NotifType.message, title := "New Message", body := nb,
                 convRef := some convId, prodRef := some conv.product,
                 isRead := false, expiresAt := none }],
           nextMsgId := st.nextMsgId + 1 },
       [⟨"user_" ++ toString recipientId, "newMessage"⟩,
        ⟨"user_" ++ toString senderId, "messageSent"⟩],
       Except.ok nm⟩ := by
  have hcs : conversationSave { conv with
      lastMessage := some nm.id,
      unreadCount := unreadSet conv.unreadCount recipientId
        (unreadGet conv.unreadCount recipientId + 1) } =
      Except.ok { conv with
        lastMessage := some nm.id,
        unreadCount := unreadSet conv.unreadCount recipientId
          (unreadGet conv.unreadCount recipientId + 1) } := by
    simp [conversationSave, conversationValidate, hval]
  unfold postMessage
  rw [hfc]
  dsimp only
  rw [hop]
  dsimp only
  rw [hcr]
  dsimp only
  rw [hcs]
  dsimp only
  rw [hnb]

/-- Inversion of a successful socket append. -/
theorem sendMessageSocket_ok_inv (st : ChatState) (senderId : UserId)
    (senderName : String) (online : List UserId) (convId : ConvId)
    (body : String) (mtype : MessageType) (offerSpec : Option OfferSpec)
    (now : Time) (m : Message)
    (h : (sendMessageSocket st senderId senderName online convId body mtype
      offerSpec now).out = Except.ok m) :
    ∃ conv recipientId,
      findConvForUser st convId senderId = some conv ∧
      otherParticipant conv senderId = some recipientId ∧
      conv.participants.length = 2 ∧
      messageCreate now (messageDraft st.nextMsgId convId senderId recipientId
        body mtype (socketOfferData offerSpec) now) = Except.ok m := by
  unfold sendMessageSocket at h
  rcases hfc : findConvForUser st convId senderId with _ | conv
  · rw [hfc] at h; cases h
  rw [hfc] at h
  dsimp only at h
  rcases hop : otherParticipant conv senderId with _ | recipientId
  · rw [hop] at h; cases h
  rw [hop] at h
  dsimp only at h
  rcases hcr : messageCreate now (messageDraft st.nextMsgId convId senderId
      recipientId body mtype (socketOfferData offerSpec) now) with e | nm
  · rw [hcr] at h; cases h
  rw [hcr] at h
  dsimp only at h
  rcases hcs : conversationSave { conv with lastMessage := some nm.id } with e | cs
  · rw [hcs] at h; cases h
  rw [hcs] at h
  dsimp only at h
  have hval : conv.participants.length = 2 := by
    unfold conversationSave at hcs
    by_cases hv : conversationValidate { conv with lastMessage := some nm.id } = true
    · simpa [conversationValidate] using hv
    · rw [if_neg hv] at hcs; cases hcs
  split at h <;>
    (cases h
     refine ⟨conv, recipientId, ?_, ?_, hval, ?_⟩
     · first | rfl | exact hfc
     · first | rfl | exact hop
     · first | rfl | exact hcr)

/-- Full evaluation of a successful socket append, by presence of the
recipient. -/
theorem sendMessageSocket_eq (st : ChatState) (senderId : UserId)
    (senderName : String) (online : List UserId) (convId : ConvId)
    (body : String) (mtype : MessageType) (offerSpec : Option OfferSpec)
    (now : Time) (conv : Conversation) (recipientId : UserId) (nm : Message)
    (hfc : findConvForUser st convId senderId = some conv)
    (hop : otherParticipant conv senderId = some recipientId)
    (hval : conv.participants.length = 2)
    (hcr : messageCreate now (messageDraft st.nextMsgId convId senderId
      recipientId body mtype (socketOfferData offerSpec) now) = Except.ok nm) :
    sendMessageSocket st senderId senderName online convId body mtype offerSpec now =
      if online.contains recipientId then
        ⟨{ st with
             messages := st.messages ++ [nm],
             conversations := updateConv st.conversations
               { conv with lastMessage := some nm.id },
             nextMsgId := st.nextMsgId + 1 },
         [⟨conversationChannel convId, "newMessage"⟩],
         Except.ok nm⟩
      else
        ⟨{ st with
             messages := st.messages ++ [nm],
             conversations := updateConv st.conversations
               { conv with lastMessage := some nm.id },
             notifications := st.notifications ++
               [notificationPreSave now
                 { recipient := recipientId, sender := some senderId,
                   ntype := NotifType.message, title := "New Message",
                   body := senderName ++ " sent you a message",
                   convRef := some convId, prodRef := none, isRead := false,
                   expiresAt := none }],
             nextMsgId := st.nextMsgId + 1 },
         [⟨conversationChannel convId, "newMessage"⟩],
         Except.ok nm⟩ := by
  have hcs : conversationSave { conv with lastMessage := some nm.id } =
      Except.ok { conv with lastMessage := some nm.id } := by
    simp [conversationSave, conversationValidate, hval]
  unfold sendMessageSocket
  rw [hfc]
  dsimp only
  rw [hop]
  dsimp only
  rw [hcr]
  dsimp only
  rw [hcs]

/-! ### Claim C4 -/

/-- C4: every conversation that is successfully saved (creation goes through
the same validation) has exactly 2 participants; saving any participant list
of another length fails with the validation error of the pre-validate hook. -/
theorem conversationSave_exactly_two (c : Conversation) :
    (∀ c', conversationSave c = Except.ok c' → c'.participants.length = 2) ∧
    (c.participants.length = 2 → conversationSave c = Except.ok c) ∧
    (c.participants.length ≠ 2 →
      conversationSave c =
        Except.error (ChatErr.validation "Conversation must have exactly 2 participants")) := by
  unfold conversationSave conversationValidate
  refine ⟨?_, ?_, ?_⟩
  · intro c' h
    split at h
    · cases h
      rename_i hv
      simpa using hv
    · cases h
  · intro h
    simp [h]
  · intro h
    rw [if_neg (by simpa using h)]

/-- Fixture: a well-formed two-party conversation. -/
def convC4 : Conversation :=
  { id := 1, participants := [1, 2], product := 7, lastMessage := none,
    isActive := true, unreadCount := [(1, 0), (2, 0)], blockedBy := [],
    archivedBy := [] }

/-- Witness for C4 at a concrete two-party conversation. -/
theorem conversationSave_exactly_two_witness :
    conversationSave convC4 = Except.ok convC4 :=
  (conversationSave_exactly_two convC4).2.1 (by decide)

/-! ### Claim C6 -/

/-- C6: the message history of a conversation is returned oldest-first with
non-decreasing creation timestamps, and listing a conversation holding N
live messages with page 1 and page size N returns exactly those N messages
in chronological order. -/
theorem listByConversation_ordered_roundtrip (st : ChatState) (userId : UserId)
    (convId : ConvId) (now : Time) :
    (∀ page limit pr,
        (getConversationMessages st userId convId page limit now).out = Except.ok pr →
        pr.messages.Pairwise (fun a b => a.createdAt ≤ b.createdAt)) ∧
    (∀ pr,
        (getConversationMessages st userId convId 1
            ((st.messages.filter (fun m => m.conversation == convId && !m.isDeleted)).length)
            now).out = Except.ok pr →
        List.Perm pr.messages
          (st.messages.filter (fun m => m.conversation == convId && !m.isDeleted)) ∧
        pr.messages.Pairwise (fun a b => a.createdAt ≤ b.createdAt)) := by
  have hmain : ∀ page limit pr,
      (getConversationMessages st userId convId page limit now).out = Except.ok pr →
      pr.messages = ((((sortByCreatedDesc (st.messages.filter
          (fun m => m.conversation == convId && !m.isDeleted))).drop
            ((page - 1) * limit)).take limit)).reverse := by
    intro page limit pr h
    obtain ⟨conv, hfc, h2⟩ :=
      getConversationMessages_out_ok st userId convId page limit now pr h
    rw [getConversationMessages_eq st userId convId page limit now conv hfc h2] at h
    simp only [Except.ok.injEq] at h
    rw [← h]
  constructor
  · intro page limit pr h
    rw [hmain page limit pr h]
    exact pairwise_page _ _ _
  · intro pr h
    set N := (st.messages.filter (fun m => m.conversation == convId && !m.isDeleted)).length with hN
    refine ⟨?_, ?_⟩
    · rw [hmain 1 N pr h]
      have hlen : (sortByCreatedDesc (st.messages.filter
          (fun m => m.conversation == convId && !m.isDeleted))).length = N := by
        rw [hN]
        exact (sortByCreatedDesc_perm _).length_eq
      have hskip : (1 - 1) * N = 0 := by simp
      rw [hskip, List.drop_zero, List.take_of_length_le (le_of_eq hlen)]
      exact (List.reverse_perm _).trans (sortByCreatedDesc_perm _)
    · rw [hmain 1 N pr h]
      exact pairwise_page _ _ _

/-- Fixture: conversation 1 with two text messages created at 10 and 20. -/
def msgC6a : Message :=
  { id := 1, conversation := 1, sender := 2, recipient := 1, body := "hello",
    messageType := MessageType.text, offer := none, isRead := false,
    readAt := none, isDeleted := false, deletedAt := none, createdAt := 10 }

/-- Fixture: the second, later message of the C6 state. -/
def msgC6b : Message :=
  { id := 2, conversation := 1, sender := 1, recipient := 2, body := "hi",
    messageType := MessageType.text, offer := none, isRead := false,
    readAt := none, isDeleted := false, deletedAt := none, createdAt := 20 }

/-- Fixture: state holding conversation 1 and its two messages. -/
def stC6 : ChatState :=
  { conversations := [convC4], messages := [msgC6a, msgC6b],
    notifications := [], nextMsgId := 3 }

/-- Fixture: the page the history endpoint returns on the C6 state. -/
def prC6 : PageResult := { messages := [msgC6a, msgC6b], total := 2 }

/-- Witness for C6: the concrete two-message conversation round-trips in
chronological order. -/
theorem listByConversation_ordered_roundtrip_witness :
    List.Perm prC6.messages
      (stC6.messages.filter (fun m => m.conversation == 1 && !m.isDeleted)) ∧
    prC6.messages.Pairwise (fun a b => a.createdAt ≤ b.createdAt) :=
  (listByConversation_ordered_roundtrip stC6 1 1 100).2 prC6 (by rfl)

/-! ### Claim C10 -/

/-- C10: the lastSeen stamp of a presence entry is written only by the
connection handler; no inbound event on an open connection refreshes it, so
the sweep deletes every entry whose age strictly exceeds 30 minutes, even
one whose connection is actively sending. -/
theorem presence_sweep_removes_active_user (reg : PresenceMap) (u : UserId)
    (evs : List PresenceEvent) (t : Time)
    (hevs : ∀ e ∈ evs, ∃ w s, e = PresenceEvent.inboundEvent w s)
    (hstale : ∀ q ∈ reg, q.1 = u → staleLimit < t - q.2.lastSeen) :
    presenceRun reg evs = reg ∧
    ∀ q ∈ presenceStep (presenceRun reg evs) (PresenceEvent.sweep t), q.1 ≠ u := by
  have hrun : ∀ evs' : List PresenceEvent,
      (∀ e ∈ evs', ∃ w s, e = PresenceEvent.inboundEvent w s) →
      presenceRun reg evs' = reg := by
    intro evs'
    induction evs' with
    | nil => intro _; rfl
    | cons e es ih =>
        intro h
        obtain ⟨w, s, rfl⟩ := h e (by simp)
        have hstep : presenceRun reg (PresenceEvent.inboundEvent w s :: es) =
            presenceRun reg es := rfl
        rw [hstep]
        exact ih (fun e2 he2 => h e2 (by simp [he2]))
  refine ⟨hrun evs hevs, ?_⟩
  rw [hrun evs hevs]
  intro q hq hqu
  unfold presenceStep at hq
  obtain ⟨hmem, hcond⟩ := List.mem_filter.mp hq
  simp only [Bool.not_eq_eq_eq_not, Bool.not_true, decide_eq_false_iff_not] at hcond
  exact hcond (hstale q hmem hqu)

/-- Fixture: registry with user 1 connected at time 0 through socket 5. -/
def regC10 : PresenceMap := [(1, ⟨5, 0⟩)]

/-- Fixture: two inbound events from user 1 during the 30-minute window. -/
def evsC10 : List PresenceEvent :=
  [PresenceEvent.inboundEvent 1 600000, PresenceEvent.inboundEvent 1 1200000]

/-- Witness for C10: the actively sending user 1 survives no sweep run just
past the 30-minute mark. -/
theorem presence_sweep_removes_active_user_witness :
    presenceRun regC10 evsC10 = regC10 ∧
    ∀ q ∈ presenceStep (presenceRun regC10 evsC10) (PresenceEvent.sweep 1800001),
      q.1 ≠ 1 :=
  presence_sweep_removes_active_user regC10 1 evsC10 1800001
    (by
      intro e he
      simp only [evsC10, List.mem_cons, List.mem_singleton, List.not_mem_nil, or_false] at he
      rcases he with rfl | rfl
      · exact ⟨1, 600000, rfl⟩
      · exact ⟨1, 1200000, rfl⟩)
    (by
      intro q hq hqu
      simp only [regC10, List.mem_singleton] at hq
      subst hq
      decide)

/-! ### Claim C5 -/

/-- C5 (amended): the read-marking performed by the REST history endpoint
marks every unread message addressed to the reader as read with a timestamp
and resets the reader's unread counter on the conversation to 0; a second
call leaves the counter at 0 again.  The socket markAsRead handler is not
covered: it marks only the single given message id and never touches the
conversation counter. -/
theorem markRead_rest_resets_and_idempotent (st : ChatState) (userId : UserId)
    (convId : ConvId) (page limit : Nat) (now now2 : Time) (pr : PageResult)
    (h : (getConversationMessages st userId convId page limit now).out = Except.ok pr) :
    (∀ m ∈ st.messages, m.conversation = convId → m.recipient = userId →
        m.isRead = false →
        { m with isRead := true, readAt := some now } ∈
          (getConversationMessages st userId convId page limit now).state.messages) ∧
    (∀ m ∈ (getConversationMessages st userId convId page limit now).state.messages,
        m.conversation = convId → m.recipient = userId → m.isRead = true) ∧
    (∀ c ∈ (getConversationMessages st userId convId page limit now).state.conversations,
        c.id = convId → unreadGet c.unreadCount userId = 0) ∧
    (∀ pr2,
        (getConversationMessages
            (getConversationMessages st userId convId page limit now).state
            userId convId page limit now2).out = Except.ok pr2 →
        ∀ c ∈ (getConversationMessages
            (getConversationMessages st userId convId page limit now).state
            userId convId page limit now2).state.conversations,
          c.id = convId → unreadGet c.unreadCount userId = 0) := by
  obtain ⟨conv, hfc, h2⟩ :=
    getConversationMessages_out_ok st userId convId page limit now pr h
  refine ⟨?_, ?_, getMessages_counter_zero st userId convId page limit now pr h,
    fun pr2 h2q => getMessages_counter_zero _ userId convId page limit now2 pr2 h2q⟩
  · intro m hm hconv hrec hunread
    rw [getConversationMessages_eq st userId convId page limit now conv hfc h2]
    refine List.mem_map.mpr ⟨m, hm, ?_⟩
    rw [if_pos]
    simp [hconv, hrec, hunread]
  · intro m hm hconv hrec
    rw [getConversationMessages_eq st userId convId page limit now conv hfc h2] at hm
    obtain ⟨x, _, hx⟩ := List.mem_map.mp hm
    by_cases hcond : (x.conversation == convId && x.recipient == userId && !x.isRead) = true
    · rw [if_pos hcond] at hx
      rw [← hx]
    · rw [if_neg hcond] at hx
      subst hx
      by_cases hr : x.isRead = true
      · exact hr
      · exfalso
        apply hcond
        have hxf : x.isRead = false := by
          cases hxr : x.isRead
          · rfl
          · exact absurd hxr hr
        simp [hconv, hrec, hxf]

/-- Fixture: conversation 1 with two unread counters at 2 for user 2. -/
def convC5 : Conversation :=
  { id := 1, participants := [1, 2], product := 7, lastMessage := some 11,
    isActive := true, unreadCount := [(1, 0), (2, 2)], blockedBy := [],
    archivedBy := [] }

/-- Fixture: first unread message addressed to user 2. -/
def msgC5a : Message :=
  { id := 10, conversation := 1, sender := 1, recipient := 2, body := "one",
    messageType := MessageType.text, offer := none, isRead := false,
    readAt := none, isDeleted := false, deletedAt := none, createdAt := 10 }

/-- Fixture: second unread message addressed to user 2. -/
def msgC5b : Message :=
  { id := 11, conversation := 1, sender := 1, recipient := 2, body := "two",
    messageType := MessageType.text, offer := none, isRead := false,
    readAt := none, isDeleted := false, deletedAt := none, createdAt := 20 }

/-- Fixture: state with two unread messages for user 2 and counter 2. -/
def stC5 : ChatState :=
  { conversations := [convC5], messages := [msgC5a, msgC5b],
    notifications := [], nextMsgId := 12 }

/-- Fixture: the page returned to user 2 on the C5 state. -/
def prC5 : PageResult := { messages := [msgC5a, msgC5b], total := 2 }

/-- Witness for C5: on the concrete state the first unread message is
stored back as read with the read timestamp. -/
theorem markRead_rest_resets_and_idempotent_witness :
    { msgC5a with isRead := true, readAt := some (100 : Time) } ∈
      (getConversationMessages stC5 2 1 1 50 100).state.messages :=
  (markRead_rest_resets_and_idempotent stC5 2 1 1 50 100 200 prC5 (by rfl)).1
    msgC5a (by decide) rfl rfl rfl

/-- Counterexample for C5 as frozen: the socket markAsRead handler is a
markAsRead path, yet it marks only the one given message and leaves the
reader's unread counter at 2: the second unread message stays unread and no
counter is reset to 0. -/
theorem markAsRead_socket_counterexample :
    (markAsReadSocket stC5 2 10 1 500).out = Except.ok () ∧
    (markAsReadSocket stC5 2 10 1 500).state.messages =
      [{ msgC5a with isRead := true, readAt := some 500 }, msgC5b] ∧
    msgC5b.isRead = false ∧ msgC5b.recipient = 2 ∧
    (markAsReadSocket stC5 2 10 1 500).state.conversations = [convC5] ∧
    unreadGet convC5.unreadCount 2 = 2 := by
  refine ⟨rfl, by decide, rfl, rfl, by decide, by decide⟩

/-! ### Claim C3 -/

/-- C3 (amended): expiry of a pending offer is applied on the offer-response
path (strictly past expiry: expired error, status written back as expired)
and on every document save through the pre-save hook, but the
message-listing read path returns the stored documents verbatim, so a
pending offer past its expiry is surfaced as pending there. -/
theorem offer_lazy_expiry_amended (st : ChatState) (userId : UserId)
    (convId : ConvId) (page limit : Nat) (now : Time) (msgId : MsgId)
    (action : OfferAction) :
    (∀ pr, (getConversationMessages st userId convId page limit now).out = Except.ok pr →
        ∀ m ∈ pr.messages, m ∈ st.messages) ∧
    (∀ m o e, st.messages.find? (offerQuery userId msgId) = some m →
        m.offer = some o → o.expiresAt = some e → e < now →
        (offerActionRest st userId msgId action now).out =
          Except.error (ChatErr.badRequest "Offer has expired") ∧
        ∀ m' ∈ (offerActionRest st userId msgId action now).state.messages,
          m'.id = msgId → Option.map Offer.status m'.offer = some OfferStatus.expired) ∧
    (∀ m o, offerPastExpiry now o = true → o.status = OfferStatus.pending →
        m.offer = some o → m.messageType = MessageType.offer →
        Option.map Offer.status (messagePreSave now false false m).offer =
          some OfferStatus.expired) := by
  refine ⟨fun pr h => getMessages_returns_stored st userId convId page limit now pr h,
    fun m o e hf ho he hlt =>
      offerActionRest_expired_spec st userId msgId action now m o e hf ho he hlt,
    ?_⟩
  intro m o hpast hpend ho htype
  unfold messagePreSave
  simp [ho, htype, hpast, hpend]

/-- Fixture: a pending offer message with expiry 100, created at 10. -/
def msgC3 : Message :=
  { id := 1, conversation := 1, sender := 1, recipient := 2, body := "offer",
    messageType := MessageType.offer,
    offer := some { price := 50, status := OfferStatus.pending, expiresAt := some 100 },
    isRead := false, readAt := none, isDeleted := false, deletedAt := none,
    createdAt := 10 }

/-- Fixture: state holding the stale pending offer. -/
def stC3 : ChatState :=
  { conversations := [convC4], messages := [msgC3],
    notifications := [], nextMsgId := 2 }

/-- Witness for C3 (amended): responding at time 200 to the offer that
expired at 100 answers the expired error. -/
theorem offer_lazy_expiry_amended_witness :
    (offerActionRest stC3 2 1 OfferAction.accept 200).out =
      Except.error (ChatErr.badRequest "Offer has expired") :=
  ((offer_lazy_expiry_amended stC3 2 1 1 50 200 1 OfferAction.accept).2.1
    msgC3 { price := 50, status := OfferStatus.pending, expiresAt := some 100 }
    100 (by rfl) rfl rfl (by decide)).1

/-- Counterexample for C3 as frozen: listing the conversation at time 200
surfaces the offer that expired at 100 still with status pending, not
expired. -/
theorem offer_lazy_expiry_listing_counterexample :
    (getConversationMessages stC3 2 1 1 50 200).out =
      Except.ok { messages := [msgC3], total := 1 } ∧
    Option.map Offer.status msgC3.offer = some OfferStatus.pending ∧
    offerPastExpiry 200 { price := 50, status := OfferStatus.pending, expiresAt := some 100 } = true := by
  refine ⟨by rfl, by decide, by decide⟩

/-! ### Claim C2 -/

/-- C2 (amended): on the REST offer endpoint, accept or reject succeeds only
for a pending offer addressed to the responder whose expiry is not strictly
past: a resolved or foreign offer is answered with the not-found error
(rather than a distinct state error), a pending offer strictly past expiry
is answered with the expired error, and on success the status becomes
accepted (resp. rejected), an acknowledgment message of type text (not
system) is appended, and a notification is persisted for the original
sender.  The socket respondToOffer path checks only the recipient and is
not covered by these guarantees. -/
theorem offer_action_rest_amended (st : ChatState) (userId : UserId)
    (msgId : MsgId) (action : OfferAction) (now : Time)
    (hfresh : ∀ m ∈ st.messages, m.id < st.nextMsgId) :
    (st.messages.find? (offerQuery userId msgId) = none →
        (offerActionRest st userId msgId action now).out =
          Except.error (ChatErr.notFound "Offer not found or already processed") ∧
        (offerActionRest st userId msgId action now).state = st) ∧
    (∀ m o e, st.messages.find? (offerQuery userId msgId) = some m →
        m.offer = some o → o.expiresAt = some e → e < now →
        (offerActionRest st userId msgId action now).out =
          Except.error (ChatErr.badRequest "Offer has expired")) ∧
    (∀ m o, st.messages.find? (offerQuery userId msgId) = some m →
        m.offer = some o → offerPastExpiry now o = false →
        (∃ mr, (offerActionRest st userId msgId action now).out = Except.ok mr ∧
            Option.map Offer.status mr.offer = some (actionStatus action)) ∧
        (∀ m' ∈ (offerActionRest st userId msgId action now).state.messages,
            m'.id = msgId →
            Option.map Offer.status m'.offer = some (actionStatus action)) ∧
        (∃ ackm, ackm ∈ (offerActionRest st userId msgId action now).state.messages ∧
            ackm.sender = userId ∧ ackm.recipient = m.sender ∧
            ackm.messageType = MessageType.text ∧
            ackm.body = "Offer " ++ actionWord action ++ "ed") ∧
        (∃ n, (offerActionRest st userId msgId action now).state.notifications =
            st.notifications ++ [n] ∧ n.recipient = m.sender ∧
            n.ntype = NotifType.offer)) := by
  refine ⟨?_, ?_, ?_⟩
  · intro hf
    unfold offerActionRest
    rw [hf]
    exact ⟨rfl, rfl⟩
  · intro m o e hf ho he hlt
    exact (offerActionRest_expired_spec st userId msgId action now m o e hf ho he hlt).1
  · intro m o hf ho hpast
    obtain ⟨hid, hrec, htype, o2, ho2, hpend2⟩ :=
      offerQuery_spec userId msgId m (List.find?_some hf)
    rw [offerActionRest_success_eq st userId msgId action now m o hf ho hpast]
    have hflip : (messagePreSave now false false
        { m with offer := some { o with status := actionStatus action } }).offer =
        some { o with status := actionStatus action } := by
      apply messagePreSave_offer_stable
      intro o3 ho3
      simp only [Option.some.injEq] at ho3
      intro hcon
      rw [← ho3] at hcon
      cases action <;> simp [actionStatus] at hcon
    have hidU : (messagePreSave now false false
        { m with offer := some { o with status := actionStatus action } }).id = m.id :=
      (messagePreSave_fields now false false _).2.2.2.2.1
    have hn := notificationPreSave_id now
      { recipient := m.sender, sender := some userId, ntype := NotifType.offer,
        title := "Offer " ++ capitalizeFirst (actionWord action) ++ "ed",
        body := "Your offer of $" ++ toString o.price ++ " was " ++
          actionWord action ++ "ed",
        convRef := some m.conversation, prodRef := none, isRead := false,
        expiresAt := none } (Or.inl rfl)
    refine ⟨⟨_, rfl, by rw [hflip]; rfl⟩, ?_, ?_, ?_⟩
    · intro m' hm' hmid
      rcases List.mem_append.mp hm' with hm1 | hm2
      · have := mem_updateMsg_same_id st.messages _ m' hm1
          (by rw [hidU, hid]; exact hmid)
        rw [this, hflip]
        rfl
      · exfalso
        simp only [List.mem_singleton] at hm2
        subst hm2
        have hmmem : m ∈ st.messages := List.mem_of_find?_eq_some hf
        have hlt2 := hfresh m hmmem
        rw [hid] at hlt2
        simp only [] at hmid
        rw [hmid] at hlt2
        exact absurd hlt2 (lt_irrefl _)
    · refine ⟨_, List.mem_append_right _ (List.mem_singleton.mpr rfl),
        rfl, rfl, rfl, ?_⟩
      cases action <;> rfl
    · rw [hn]
      exact ⟨_, rfl, rfl, rfl⟩

/-- Fixture: a pending offer inside its window (expiry 1000). -/
def offerC2w : Offer :=
  { price := 50, status := OfferStatus.pending, expiresAt := some 1000 }

/-- Fixture: the offer message addressed to user 2. -/
def msgC2w : Message :=
  { id := 1, conversation := 1, sender := 1, recipient := 2, body := "offer",
    messageType := MessageType.offer, offer := some offerC2w, isRead := false,
    readAt := none, isDeleted := false, deletedAt := none, createdAt := 10 }

/-- Fixture: state holding the pending in-window offer. -/
def stC2w : ChatState :=
  { conversations := [convC4], messages := [msgC2w],
    notifications := [], nextMsgId := 2 }

/-- Witness for C2 (amended): user 2 accepts the in-window pending offer at
time 500 and the stored offer message carries status accepted. -/
theorem offer_action_rest_amended_witness :
    Option.map Offer.status
      ({ msgC2w with offer := some { offerC2w with
          status := OfferStatus.accepted } }).offer =
      some (actionStatus OfferAction.accept) :=
  ((offer_action_rest_amended stC2w 2 1 OfferAction.accept 500 (by decide)).2.2
      msgC2w offerC2w (by rfl) rfl (by decide)).2.1
    { msgC2w with offer := some { offerC2w with status := OfferStatus.accepted } }
    (by decide) rfl

/-- Fixture: an already accepted offer (resolved). -/
def offerC2x : Offer :=
  { price := 50, status := OfferStatus.accepted, expiresAt := some 100 }

/-- Fixture: the resolved offer message addressed to user 2. -/
def msgC2x : Message :=
  { id := 1, conversation := 1, sender := 1, recipient := 2, body := "offer",
    messageType := MessageType.offer, offer := some offerC2x, isRead := false,
    readAt := none, isDeleted := false, deletedAt := none, createdAt := 10 }

/-- Fixture: state holding the resolved offer. -/
def stC2x : ChatState :=
  { conversations := [convC4], messages := [msgC2x],
    notifications := [], nextMsgId := 2 }

/-- Counterexample for C2 as frozen: the socket respondToOffer handler lets
the recipient reject an offer that was already accepted: the call succeeds,
the resolved status is overwritten to rejected and a notification is still
raised, where the claim requires a StateError for any further attempt. -/
theorem respondToOffer_socket_overwrites_resolved_counterexample :
    (respondToOfferSocket stC2x 2 1 OfferResponse.rejected 500).out =
      Except.ok true ∧
    (respondToOfferSocket stC2x 2 1 OfferResponse.rejected 500).state.messages =
      [{ msgC2x with offer := some { offerC2x with
          status := OfferStatus.rejected } }] ∧
    (respondToOfferSocket stC2x 2 1 OfferResponse.rejected 500).state.notifications.length = 1 := by
  refine ⟨rfl, by decide, rfl⟩

/-! ### Claim C9 -/

/-- C9 (amended): on the REST append path an offer without explicit expiry
is stored pending with expiry equal to creation time plus 24 hours, and a
supplied expiry is stored instead; on the socket append path the payload is
stored as given, with the schema default status pending but no default
expiry at all. -/
theorem offer_defaults_amended (st : ChatState) (senderId : UserId)
    (senderName : String) (online : List UserId) (convId : ConvId)
    (body : String) (price : Int) (e : Time) (now : Time) :
    (∀ m, (postMessage st senderId senderName convId body MessageType.offer
        (some { price := price, expiresAt := none }) now).out = Except.ok m →
      m.offer = some { price := price, status := OfferStatus.pending,
                       expiresAt := some (now + 24 * 60 * 60 * 1000) }) ∧
    (∀ m, (postMessage st senderId senderName convId body MessageType.offer
        (some { price := price, expiresAt := some e }) now).out = Except.ok m →
      Option.map Offer.expiresAt m.offer = some (some e)) ∧
    (∀ m, (sendMessageSocket st senderId senderName online convId body
        MessageType.offer (some { price := price, expiresAt := none }) now).out =
          Except.ok m →
      m.offer = some { price := price, status := OfferStatus.pending,
                       expiresAt := none }) := by
  refine ⟨?_, ?_, ?_⟩
  · intro m h
    obtain ⟨conv, r, nb, hfc, hop, hval, hcr, hnb⟩ :=
      postMessage_ok_inv st senderId senderName convId body MessageType.offer
        (some { price := price, expiresAt := none }) now m h
    have hdo : (messageDraft st.nextMsgId convId senderId r body
        MessageType.offer (restOfferData now MessageType.offer
          (some { price := price, expiresAt := none })) now).offer =
        some { price := price, status := OfferStatus.pending,
               expiresAt := some (now + 24 * 60 * 60 * 1000) } := rfl
    have := messageCreate_offer_stable now _ m hcr (by
      intro o3 ho3 hcon
      rw [hdo] at ho3
      rw [← Option.some.inj ho3] at hcon
      have hc1 := hcon.1
      rw [show offerPastExpiry now { price := price,
                                     status := OfferStatus.pending,
                                     expiresAt := some (now + 24 * 60 * 60 * 1000) } =
          decide (now + 24 * 60 * 60 * 1000 < now) from rfl] at hc1
      simp only [decide_eq_true_eq] at hc1
      exact absurd hc1 (Nat.not_lt.mpr (Nat.le_add_right now (24 * 60 * 60 * 1000))))
    rw [this, hdo]
  · intro m h
    obtain ⟨conv, r, nb, hfc, hop, hval, hcr, hnb⟩ :=
      postMessage_ok_inv st senderId senderName convId body MessageType.offer
        (some { price := price, expiresAt := some e }) now m h
    have := messageCreate_offer_shape now _ m
      { price := price, status := OfferStatus.pending, expiresAt := some e }
      hcr (by rfl)
    rcases this with h1 | h1 <;> rw [h1] <;> rfl
  · intro m h
    obtain ⟨conv, r, hfc, hop, hval, hcr⟩ :=
      sendMessageSocket_ok_inv st senderId senderName online convId body
        MessageType.offer (some { price := price, expiresAt := none }) now m h
    have hdo : (messageDraft st.nextMsgId convId senderId r body
        MessageType.offer (socketOfferData
          (some { price := price, expiresAt := none })) now).offer =
        some { price := price, status := OfferStatus.pending,
               expiresAt := none } := rfl
    have := messageCreate_offer_stable now _ m hcr (by
      intro o3 ho3 hcon
      rw [hdo] at ho3
      rw [← Option.some.inj ho3] at hcon
      have hc1 := hcon.1
      rw [show offerPastExpiry now { price := price,
                                     status := OfferStatus.pending,
                                     expiresAt := none } =
          false from rfl] at hc1
      cases hc1)
    rw [this, hdo]

/-- Fixture: empty chat state over the two-party conversation. -/
def stC9 : ChatState :=
  { conversations := [convC4], messages := [], notifications := [],
    nextMsgId := 1 }

/-- Fixture: offer message stored by the REST append at time 1000 with the
defaulted 24-hour expiry. -/
def mC9w : Message :=
  { id := 1, conversation := 1, sender := 1, recipient := 2, body := "deal",
    messageType := MessageType.offer,
    offer := some { price := 50, status := OfferStatus.pending,
                    expiresAt := some 86401000 },
    isRead := false, readAt := none, isDeleted := false, deletedAt := none,
    createdAt := 1000 }

/-- Witness for C9 (amended): the REST append at time 1000 stores expiry
1000 plus 24 hours, that is 86401000. -/
theorem offer_defaults_amended_witness :
    mC9w.offer = some { price := (50 : Int), status := OfferStatus.pending,
                        expiresAt := some (1000 + 24 * 60 * 60 * 1000) } :=
  (offer_defaults_amended stC9 1 "alice" [] 1 "deal" 50 0 1000).1 mC9w (by rfl)

/-- Fixture: offer message stored by the socket append at time 1000,
carrying no expiry. -/
def mC9x : Message :=
  { id := 1, conversation := 1, sender := 1, recipient := 2, body := "deal",
    messageType := MessageType.offer,
    offer := some { price := 50, status := OfferStatus.pending,
                    expiresAt := none },
    isRead := false, readAt := none, isDeleted := false, deletedAt := none,
    createdAt := 1000 }

/-- Counterexample for C9 as frozen: the socket append of an offer without
explicit expiry stores no expiry timestamp at all, not creation plus 24
hours. -/
theorem sendMessage_socket_offer_no_default_expiry_counterexample :
    (sendMessageSocket stC9 1 "alice" [] 1 "deal" MessageType.offer
        (some { price := 50, expiresAt := none }) 1000).out = Except.ok mC9x ∧
    Option.map Offer.expiresAt mC9x.offer = some none ∧
    mC9x.offer ≠ some { price := (50 : Int), status := OfferStatus.pending,
                        expiresAt := some (1000 + 24 * 60 * 60 * 1000) } := by
  refine ⟨rfl, rfl, by decide⟩

/-! ### Claim C1 -/

/-- C1 (amended): the two message-append paths differ in their notification
fan-out.  The socket path persists exactly one Notification when the
recipient is absent from the active-users map and none when present, and it
emits the message on the conversation room only, never on the recipient's
personal channel.  The REST path persists exactly one Notification
regardless of presence, and emits toward rooms named with the user_ prefix
rather than the personal channel joined at connection time. -/
theorem notification_fanout_amended (st : ChatState) (senderId : UserId)
    (senderName : String) (online : List UserId) (convId : ConvId)
    (body : String) (mtype : MessageType) (offerSpec : Option OfferSpec)
    (now : Time) :
    (∀ m, (sendMessageSocket st senderId senderName online convId body mtype
        offerSpec now).out = Except.ok m →
      (sendMessageSocket st senderId senderName online convId body mtype
        offerSpec now).emits = [⟨conversationChannel convId, "newMessage"⟩] ∧
      (online.contains m.recipient = true →
        (sendMessageSocket st senderId senderName online convId body mtype
          offerSpec now).state.notifications = st.notifications) ∧
      (online.contains m.recipient = false →
        ∃ n, (sendMessageSocket st senderId senderName online convId body mtype
            offerSpec now).state.notifications = st.notifications ++ [n] ∧
          n.recipient = m.recipient ∧ n.ntype = NotifType.message)) ∧
    (∀ m, (postMessage st senderId senderName convId body mtype offerSpec
        now).out = Except.ok m →
      (∃ n, (postMessage st senderId senderName convId body mtype offerSpec
          now).state.notifications = st.notifications ++ [n] ∧
        n.recipient = m.recipient ∧ n.ntype = NotifType.message) ∧
      (postMessage st senderId senderName convId body mtype offerSpec
        now).emits =
        [⟨"user_" ++ toString m.recipient, "newMessage"⟩,
         ⟨"user_" ++ toString m.sender, "messageSent"⟩]) := by
  constructor
  · intro m h
    obtain ⟨conv, r, hfc, hop, hval, hcr⟩ :=
      sendMessageSocket_ok_inv st senderId senderName online convId body mtype
        offerSpec now m h
    have hmr : m.recipient = r := by
      have := (messageCreate_fields now _ m hcr).1
      simpa [messageDraft] using this
    rw [sendMessageSocket_eq st senderId senderName online convId body mtype
      offerSpec now conv r m hfc hop hval hcr]
    by_cases hon : online.contains r = true
    · rw [if_pos hon]
      refine ⟨rfl, fun _ => rfl, fun hoff => ?_⟩
      rw [hmr] at hoff
      rw [hoff] at hon
      cases hon
    · rw [if_neg hon]
      refine ⟨rfl, fun honl => ?_, fun _ => ?_⟩
      · rw [hmr] at honl
        exact absurd honl hon
      · have hn := notificationPreSave_id now
          { recipient := r, sender := some senderId, ntype := NotifType.message,
            title := "New Message", body := senderName ++ " sent you a message",
            convRef := some convId, prodRef := none, isRead := false,
            expiresAt := none } (Or.inr rfl)
        rw [hn]
        exact ⟨_, rfl, by rw [hmr], rfl⟩
  · intro m h
    obtain ⟨conv, r, nb, hfc, hop, hval, hcr, hnb⟩ :=
      postMessage_ok_inv st senderId senderName convId body mtype offerSpec now m h
    have hmr : m.recipient = r := by
      have := (messageCreate_fields now _ m hcr).1
      simpa [messageDraft] using this
    have hms : m.sender = senderId := by
      have := (messageCreate_fields now _ m hcr).2.1
      simpa [messageDraft] using this
    rw [postMessage_eq st senderId senderName convId body mtype offerSpec now
      conv r m nb hfc hop hval hcr hnb]
    constructor
    · have hn := notificationPreSave_id now
        { recipient := r, sender := some senderId, ntype := NotifType.message,
          title := "New Message", body := nb, convRef := some convId,
          prodRef := some conv.product, isRead := false, expiresAt := none }
        (Or.inr rfl)
      rw [hn]
      exact ⟨_, rfl, by rw [hmr], rfl⟩
    · rw [hmr, hms]

/-- Fixture: empty chat state for the fan-out claims. -/
def stC1 : ChatState :=
  { conversations := [convC4], messages := [], notifications := [],
    nextMsgId := 1 }

/-- Fixture: the text message stored by either append path at time 100. -/
def mC1 : Message :=
  { id := 1, conversation := 1, sender := 1, recipient := 2, body := "hi",
    messageType := MessageType.text, offer := none, isRead := false,
    readAt := none, isDeleted := false, deletedAt := none, createdAt := 100 }

/-- Witness for C1 (amended): the REST append emits to the user_ rooms of
the recipient and the sender. -/
theorem notification_fanout_amended_witness :
    (postMessage stC1 1 "alice" 1 "hi" MessageType.text none 100).emits =
      [⟨"user_" ++ toString mC1.recipient, "newMessage"⟩,
       ⟨"user_" ++ toString mC1.sender, "messageSent"⟩] :=
  ((notification_fanout_amended stC1 1 "alice" [] 1 "hi" MessageType.text
      none 100).2 mC1 (by rfl)).2

/-- Counterexample for C1 as frozen: a socket message send to an online
recipient persists no Notification at all, where the claim requires exactly
one persisted Notification regardless of connection state. -/
theorem sendMessage_socket_online_no_notification_counterexample :
    (sendMessageSocket stC1 1 "alice" [2] 1 "hi" MessageType.text none
      100).out = Except.ok mC1 ∧
    (sendMessageSocket stC1 1 "alice" [2] 1 "hi" MessageType.text none
      100).state.notifications = [] ∧
    (sendMessageSocket stC1 1 "alice" [2] 1 "hi" MessageType.text none
      100).state.notifications.length ≠ 1 := by
  refine ⟨rfl, rfl, by decide⟩

/-! ### Claim C7 -/

/-- C7 (amended): both append paths validate that the sender is a
participant of the conversation and compute the recipient as the other
participant; a non-participant sender is answered with the not-found error
on the REST path and the unauthorized error event on the socket path, and
never gets a message persisted.  Neither path consults the blocked flags of
the conversation. -/
theorem append_participant_validation (st : ChatState) (senderId : UserId)
    (senderName : String) (online : List UserId) (convId : ConvId)
    (body : String) (mtype : MessageType) (offerSpec : Option OfferSpec)
    (now : Time) :
    (findConvForUser st convId senderId = none →
        (postMessage st senderId senderName convId body mtype offerSpec
          now).out = Except.error (ChatErr.notFound "Conversation not found") ∧
        (postMessage st senderId senderName convId body mtype offerSpec
          now).state = st ∧
        (sendMessageSocket st senderId senderName online convId body mtype
          offerSpec now).out = Except.error
            (ChatErr.socketError "Unauthorized to send message to this conversation") ∧
        (sendMessageSocket st senderId senderName online convId body mtype
          offerSpec now).state = st) ∧
    (∀ conv m, findConvForUser st convId senderId = some conv →
        (postMessage st senderId senderName convId body mtype offerSpec
          now).out = Except.ok m →
        m.sender = senderId ∧ m.recipient ≠ senderId ∧
        m.recipient ∈ conv.participants) ∧
    (∀ conv m, findConvForUser st convId senderId = some conv →
        (sendMessageSocket st senderId senderName online convId body mtype
          offerSpec now).out = Except.ok m →
        m.sender = senderId ∧ m.recipient ≠ senderId ∧
        m.recipient ∈ conv.participants) := by
  refine ⟨?_, ?_, ?_⟩
  · intro hf
    have hp : postMessage st senderId senderName convId body mtype offerSpec now =
        ⟨st, [], Except.error (ChatErr.notFound "Conversation not found")⟩ := by
      unfold postMessage
      rw [hf]
    have hs : sendMessageSocket st senderId senderName online convId body mtype
        offerSpec now =
        ⟨st, [], Except.error
          (ChatErr.socketError "Unauthorized to send message to this conversation")⟩ := by
      unfold sendMessageSocket
      rw [hf]
    rw [hp, hs]
    exact ⟨rfl, rfl, rfl, rfl⟩
  · intro conv m hfc h
    obtain ⟨conv2, r, nb, hfc2, hop, hval, hcr, hnb⟩ :=
      postMessage_ok_inv st senderId senderName convId body mtype offerSpec now m h
    have hce : conv2 = conv := Option.some.inj (hfc2.symm.trans hfc)
    subst hce
    have hmr : m.recipient = r := by
      have := (messageCreate_fields now _ m hcr).1
      simpa [messageDraft] using this
    have hms : m.sender = senderId := by
      have := (messageCreate_fields now _ m hcr).2.1
      simpa [messageDraft] using this
    obtain ⟨hrmem, hrne⟩ := otherParticipant_spec conv2 senderId r hop
    exact ⟨hms, by rw [hmr]; exact hrne, by rw [hmr]; exact hrmem⟩
  · intro conv m hfc h
    obtain ⟨conv2, r, hfc2, hop, hval, hcr⟩ :=
      sendMessageSocket_ok_inv st senderId senderName online convId body mtype
        offerSpec now m h
    have hce : conv2 = conv := Option.some.inj (hfc2.symm.trans hfc)
    subst hce
    have hmr : m.recipient = r := by
      have := (messageCreate_fields now _ m hcr).1
      simpa [messageDraft] using this
    have hms : m.sender = senderId := by
      have := (messageCreate_fields now _ m hcr).2.1
      simpa [messageDraft] using this
    obtain ⟨hrmem, hrne⟩ := otherParticipant_spec conv2 senderId r hop
    exact ⟨hms, by rw [hmr]; exact hrne, by rw [hmr]; exact hrmem⟩

/-- Witness for C7 (amended): user 3, not a participant of conversation 1,
is answered not-found by the REST append. -/
theorem append_participant_validation_witness :
    (postMessage stC1 3 "mallory" 1 "hi" MessageType.text none 100).out =
      Except.error (ChatErr.notFound "Conversation not found") :=
  ((append_participant_validation stC1 3 "mallory" [] 1 "hi" MessageType.text
      none 100).1 (by rfl)).1

/-- Fixture: conversation 1 blocked by its participant 2. -/
def convC7 : Conversation :=
  { id := 1, participants := [1, 2], product := 7, lastMessage := none,
    isActive := true, unreadCount := [(1, 0), (2, 0)], blockedBy := [2],
    archivedBy := [] }

/-- Fixture: state whose only conversation is blocked by user 2. -/
def stC7 : ChatState :=
  { conversations := [convC7], messages := [], notifications := [],
    nextMsgId := 1 }

/-- Fixture: the message user 1 stores despite the block by user 2. -/
def mC7 : Message :=
  { id := 1, conversation := 1, sender := 1, recipient := 2, body := "hello",
    messageType := MessageType.text, offer := none, isRead := false,
    readAt := none, isDeleted := false, deletedAt := none, createdAt := 100 }

/-- Counterexample for C7 as frozen: the recipient has blocked the
conversation, yet the append succeeds and the message is persisted: no
blocked-by check is performed on the append path. -/
theorem append_ignores_block_counterexample :
    convC7.blockedBy = [2] ∧
    (postMessage stC7 1 "alice" 1 "hello" MessageType.text none 100).out =
      Except.ok mC7 ∧
    mC7 ∈ (postMessage stC7 1 "alice" 1 "hello" MessageType.text none
      100).state.messages := by
  refine ⟨rfl, rfl, by decide⟩

/-! ### Claim C8 -/

/-- Fixture: empty chat state over the two-party conversation for the
partial-commit run. -/
def stC8 : ChatState :=
  { conversations := [convC4], messages := [], notifications := [],
    nextMsgId := 1 }

/-- C8 (code bug): appending an offer-type message without an offer payload
fails (the notification text dereferences the missing payload, an uncaught
TypeError answered as HTTP 500), yet the message was already persisted, the
recipient's unread counter was already incremented and the last-message
pointer already moved: a failing append leaves partial side effects behind,
against the stated no-partial-effects failure semantics. -/
theorem postMessage_offer_without_payload_partial_commit :
    (postMessage stC8 1 "alice" 1 "deal" MessageType.offer none 1000).out =
      Except.error ChatErr.internal ∧
    (postMessage stC8 1 "alice" 1 "deal" MessageType.offer none
      1000).state.messages.length = 1 ∧
    (postMessage stC8 1 "alice" 1 "deal" MessageType.offer none
      1000).state.conversations =
      [{ convC4 with lastMessage := some 1, unreadCount := [(1, 0), (2, 1)] }] ∧
    (postMessage stC8 1 "alice" 1 "deal" MessageType.offer none
      1000).state.notifications = [] := by
  refine ⟨rfl, rfl, by decide, rfl⟩

end Marketplace
